import Mathlib

/-!
Shallow embedding of `app/core/simulator.py` from the qsim_rest_api
repository, together with proofs about the claims of its specification.

Conventions of the embedding:
* Python floats are modelled as real numbers `ℝ`, complex amplitudes as `ℂ`.
* Python exceptions are modelled by `Except SimError`:
  `ValueError("Invalid rotation axis specified.")` becomes `SimError.invalidAxis`,
  `ValueError(f"{gate_name} gate requires at least one target qubit.")` becomes
  `SimError.missingTarget gate_name`, `IndexError` (both list and string
  indexing) becomes `SimError.indexError`, and `AttributeError` (attribute
  access on `None` or on a missing pydantic field) becomes
  `SimError.attributeError`.
* `numpy` matrices are `Matrix (Fin N) (Fin N) ℂ`; `np.dot(M, v)` is
  `Matrix.mulVec`; `np.kron` is `npKron` below, defined by the same
  block-index formula numpy documents.
* Python's `format(i, f'0{n}b')` for `i < 2 ^ n` is `binStr n i`;
  `int(s, 2)` is `binToNat s`; string/list indexing (with Python's wrap-around
  for negative indices in `[-len, 0)`) is `pyStrGet` / `pyListSet`.
-/

set_option autoImplicit false
set_option maxHeartbeats 1000000

open scoped BigOperators

namespace QSim

/-- Errors raised by the simulator core, mirroring the Python exceptions. -/
inductive SimError where
  | invalidAxis : SimError
  | missingTarget : String → SimError
  | indexError : SimError
  | attributeError : SimError
  deriving DecidableEq

/-- Python's `str.upper()` (gate names are ASCII): upper-case every
character of the string. -/
def pyUpper (s : String) : String := String.mk (s.data.map Char.toUpper)

/-- Python's `format(i, f'0{n}b')` for `i < 2 ^ n`: the `n`-character binary
string of `i`, most significant bit first. -/
def binStr (n i : Nat) : List Char :=
  (List.range n).map (fun k => if Nat.testBit i (n - 1 - k) then '1' else '0')

/-- Python's `int("".join(s), 2)` on a binary digit string. -/
def binToNat (s : List Char) : Nat :=
  s.foldl (fun a c => 2 * a + (if c = '1' then 1 else 0)) 0

/-- Python string indexing `s[idx]`: in-range indices read directly, negative
indices in `[-len, 0)` wrap around, anything else raises `IndexError`. -/
def pyStrGet (s : List Char) (idx : Int) : Except SimError Char :=
  if h : 0 ≤ idx ∧ idx < s.length then
    Except.ok (s.get ⟨idx.toNat, by omega⟩)
  else if h2 : -(s.length : Int) ≤ idx ∧ idx < 0 then
    Except.ok (s.get ⟨(idx + s.length).toNat, by omega⟩)
  else
    Except.error SimError.indexError

/-- Python list item assignment `s[idx] = c`, with the same index semantics
as `pyStrGet`. -/
def pyListSet (s : List Char) (idx : Int) (c : Char) : Except SimError (List Char) :=
  if 0 ≤ idx ∧ idx < s.length then
    Except.ok (s.set idx.toNat c)
  else if -(s.length : Int) ≤ idx ∧ idx < 0 then
    Except.ok (s.set (idx + s.length).toNat c)
  else
    Except.error SimError.indexError

/-- Python list indexing `l[k]` for a literal nonnegative `k` on an `int` list. -/
def listGetI (l : List Int) (k : Nat) : Except SimError Int :=
  if h : k < l.length then Except.ok (l.get ⟨k, h⟩) else Except.error SimError.indexError

/-- Short-circuiting `all(binary_str[c] == '1' for c in controls)` from
`create_controlled_gate_matrix`. -/
def checkControls (s : List Char) : List Int → Except SimError Bool
  | [] => Except.ok true
  | c :: rest => do
      let ch ← pyStrGet s c
      if ch = '1' then checkControls s rest else Except.ok false

/-- Inner `flip_target` helper of `create_cnot_matrix` / `create_ccnot_matrix`:
flip the character of `s` at (Python) index `t` and read the result back as a
binary integer. -/
def flip_target (s : List Char) (t : Int) : Except SimError Nat := do
  let ch ← pyStrGet s t
  let s2 ← pyListSet s t (if ch = '1' then '0' else '1')
  Except.ok (binToNat s2)

/-- Square complex matrices, the embedding of numpy's 2-D complex arrays. -/
abbrev CMatrix (N : Nat) := Matrix (Fin N) (Fin N) ℂ

/-- Assignment `matrix[r, c] = v` on an `N × N` numpy array (in the simulator
the written indices are always in range, so the out-of-range numpy
`IndexError` case is never exercised). -/
def setEntryN {N : Nat} (M : CMatrix N) (r c : Nat) (v : ℂ) : CMatrix N :=
  fun i j => if (i : Nat) = r ∧ (j : Nat) = c then v else M i j

/-- Embedding of `create_controlled_gate_matrix`: iterate over all basis
indices, and for each column either flip the target (all controls set) or put
a 1 on the diagonal. -/
def create_controlled_gate_matrix (controls : List Int) (target : Int)
    (num_qubits : Nat) (operation_func : List Char → Int → Except SimError Nat) :
    Except SimError (CMatrix (2 ^ num_qubits)) :=
  (List.range (2 ^ num_qubits)).foldlM (fun M i => do
      let binary_str := binStr num_qubits i
      let b ← checkControls binary_str controls
      if b then do
        let j ← operation_func binary_str target
        Except.ok (setEntryN M j i 1)
      else
        Except.ok (setEntryN M i i 1)) 0

/-- Embedding of `create_cnot_matrix`. -/
def create_cnot_matrix (control target : Int) (num_qubits : Nat) :
    Except SimError (CMatrix (2 ^ num_qubits)) :=
  create_controlled_gate_matrix [control] target num_qubits flip_target

/-- Embedding of `create_ccnot_matrix`. -/
def create_ccnot_matrix (controls : List Int) (target : Int) (num_qubits : Nat) :
    Except SimError (CMatrix (2 ^ num_qubits)) :=
  create_controlled_gate_matrix controls target num_qubits flip_target

/-- Embedding of `create_swap_matrix`. -/
def create_swap_matrix (qubit1 qubit2 : Int) (num_qubits : Nat) :
    Except SimError (CMatrix (2 ^ num_qubits)) :=
  (List.range (2 ^ num_qubits)).foldlM (fun M i => do
      let binary_str := binStr num_qubits i
      let c1 ← pyStrGet binary_str qubit1
      let c2 ← pyStrGet binary_str qubit2
      if c1 ≠ c2 then do
        let s1 ← pyListSet binary_str qubit1 c2
        let s2 ← pyListSet s1 qubit2 c1
        Except.ok (setEntryN M (binToNat s2) i 1)
      else
        Except.ok (setEntryN M i i 1)) 0

/-- Embedding of `np.kron` on square matrices: numpy's block formula, entry
`(i, j)` equal to `A[i / b, j / b] * B[i % b, j % b]`, written through the
`Fin (a * b) ≃ Fin a × Fin b` index equivalence (`Fin.divNat` / `Fin.modNat`
are exactly division and remainder by `b`). -/
def npKron {a b : Nat} (A : CMatrix a) (B : CMatrix b) : CMatrix (a * b) :=
  Matrix.reindex finProdFinEquiv finProdFinEquiv (Matrix.kroneckerMap (· * ·) A B)

/-- Loop body of `create_full_gate_matrix` after `m + 1` qubits have been
folded in: start from `op` (target 0) or `I`, then kron with `op` or `I` for
qubits `1 .. m`. -/
noncomputable def buildFull (op : CMatrix 2) (target : Int) : (m : Nat) → CMatrix (2 ^ (m + 1))
  | 0 =>
      Matrix.reindex (finCongr (by norm_num)) (finCongr (by norm_num))
        (if target = 0 then op else 1)
  | m + 1 =>
      Matrix.reindex (finCongr (pow_succ 2 (m + 1)).symm) (finCongr (pow_succ 2 (m + 1)).symm)
        (npKron (buildFull op target m) (if ((m + 1 : Nat) : Int) = target then op else 1))

/-- Embedding of `create_full_gate_matrix`.  For `num_qubits = 0` the Python
code would return a dimension-mismatched `2 × 2` matrix; circuits always have
`qubit_count ≥ 1` (data model), so that branch is unreachable and is embedded
as the `1 × 1` identity. -/
noncomputable def create_full_gate_matrix (op_matrix : CMatrix 2) (target_qubit : Int)
    (num_qubits : Nat) : CMatrix (2 ^ num_qubits) :=
  match num_qubits with
  | 0 => 1
  | m + 1 => buildFull op_matrix target_qubit m

/-- Embedding of `create_rotation_matrix` (raises `InvalidAxis` outside X, Y, Z). -/
noncomputable def create_rotation_matrix (axis : String) (theta : ℝ) :
    Except SimError (CMatrix 2) :=
  let cos_t : ℝ := Real.cos (theta / 2)
  let sin_t : ℝ := Real.sin (theta / 2)
  if pyUpper axis = "X" then
    Except.ok !![(cos_t : ℂ), -Complex.I * sin_t; -Complex.I * sin_t, cos_t]
  else if pyUpper axis = "Y" then
    Except.ok !![(cos_t : ℂ), -(sin_t : ℂ); (sin_t : ℂ), cos_t]
  else if pyUpper axis = "Z" then
    Except.ok !![Complex.exp (-Complex.I * theta / 2), 0; 0, Complex.exp (Complex.I * theta / 2)]
  else
    Except.error SimError.invalidAxis

/-- Fixed gate `H = [[1, 1], [1, -1]] / sqrt 2`. -/
noncomputable def H_matrix : CMatrix 2 := ((Real.sqrt 2 : ℂ))⁻¹ • !![1, 1; 1, -1]

/-- Fixed gate `X`. -/
def X_matrix : CMatrix 2 := !![0, 1; 1, 0]

/-- Fixed gate `Y`. -/
def Y_matrix : CMatrix 2 := !![0, -Complex.I; Complex.I, 0]

/-- Fixed gate `Z`. -/
def Z_matrix : CMatrix 2 := !![1, 0; 0, -1]

/-- Fixed gate `S`. -/
def S_matrix : CMatrix 2 := !![1, 0; 0, Complex.I]

/-- Fixed gate `T`. -/
noncomputable def T_matrix : CMatrix 2 :=
  !![1, 0; 0, Complex.exp (Complex.I * Real.pi / 4)]

/-- Pydantic `Gate` schema (`app/schemas.py`): `parameters` is optional and
modelled as an association list. -/
structure Gate where
  gate : String
  time : Int := 0
  targets : List Int
  controls : List Int := []
  parameters : Option (List (String × ℝ)) := none

/-- Pydantic `CircuitCreate` schema. -/
structure CircuitCreate where
  name : String := ""
  qubits : Nat
  gates : List Gate

/-- Python `dict.get(k, dflt)` on an association list. -/
def dictGet (d : List (String × ℝ)) (k : String) (dflt : ℝ) : ℝ :=
  ((d.find? (fun p => p.1 == k)).map Prod.snd).getD dflt

/-- The expression `gate_info.parameters.get("theta", 0.0)`: when `parameters`
is `None`, Python raises `AttributeError` (`.get` on `None`). -/
def getTheta (params : Option (List (String × ℝ))) : Except SimError ℝ :=
  match params with
  | none => Except.error SimError.attributeError
  | some d => Except.ok (dictGet d "theta" 0.0)

/-- State vectors of an `n`-qubit register. -/
abbrev QState (n : Nat) := Fin (2 ^ n) → ℂ

/-- Initial state `|0...0⟩` built by `run_simulation`. -/
def initState (n : Nat) : QState n := fun i => if (i : Nat) = 0 then 1 else 0

/-- Body of `run_simulation`'s `for gate_info in circuit.gates` loop for one
gate.  A `gate_matrix` that stays `None` (unknown gate name) leaves the state
unchanged; `MEASURE` is skipped by `continue`.  The single-qubit fallback
`gate_info.target` touches a field the pydantic schema does not declare, an
`AttributeError`. -/
noncomputable def applyGate (num_qubits : Nat) (state_vector : QState num_qubits)
    (gate_info : Gate) : Except SimError (QState num_qubits) :=
  let gate_name := pyUpper gate_info.gate
  if gate_name ∈ (["H", "X", "Y", "Z", "S", "T"] : List String) then
    let op_matrix :=
      if gate_name = "H" then H_matrix
      else if gate_name = "X" then X_matrix
      else if gate_name = "Y" then Y_matrix
      else if gate_name = "Z" then Z_matrix
      else if gate_name = "S" then S_matrix
      else T_matrix
    match gate_info.targets with
    | [] => Except.error SimError.attributeError
    | t :: _ =>
        Except.ok ((create_full_gate_matrix op_matrix t num_qubits).mulVec state_vector)
  else if gate_name ∈ (["RX", "RY", "RZ"] : List String) then do
    let theta ← getTheta gate_info.parameters
    let axis : String := String.mk [(gate_name.data.getLast?).getD ' ']
    let op_matrix ← create_rotation_matrix axis theta
    let t ← listGetI gate_info.targets 0
    Except.ok ((create_full_gate_matrix op_matrix t num_qubits).mulVec state_vector)
  else if gate_name = "MEASURE" then
    Except.ok state_vector
  else if gate_name ∈ (["CNOT", "SWAP", "CCNOT"] : List String) then do
    if gate_info.targets = [] then
      Except.error (SimError.missingTarget gate_name)
    else if gate_name = "CNOT" then do
      let c0 ← listGetI gate_info.controls 0
      let t0 ← listGetI gate_info.targets 0
      let M ← create_cnot_matrix c0 t0 num_qubits
      Except.ok (M.mulVec state_vector)
    else if gate_name = "SWAP" then do
      let t0 ← listGetI gate_info.targets 0
      let t1 ← listGetI gate_info.targets 1
      let M ← create_swap_matrix t0 t1 num_qubits
      Except.ok (M.mulVec state_vector)
    else do
      let t0 ← listGetI gate_info.targets 0
      let M ← create_ccnot_matrix gate_info.controls t0 num_qubits
      Except.ok (M.mulVec state_vector)
  else
    Except.ok state_vector

/-- Embedding of `run_simulation`: fold the gates over the initial state and
extract the filtered probability map (the Python function wraps this
association list as `{"states": results}`; Python dicts preserve insertion
order, so the list order is the ascending basis-index order). -/
noncomputable def run_simulation (circuit : CircuitCreate) :
    Except SimError (List (String × ℝ)) := do
  let num_qubits := circuit.qubits
  let final ← circuit.gates.foldlM (applyGate num_qubits) (initState num_qubits)
  Except.ok ((List.finRange (2 ^ num_qubits)).filterMap (fun i =>
    let prob := Complex.normSq (final i)
    if prob > 1e-9 then some (String.mk (binStr num_qubits (i : Nat)), prob) else none))

/-- Sum of squared magnitudes of a state vector (`np.sum(np.abs(v)**2)`). -/
noncomputable def norm2 {N : Nat} (v : Fin N → ℂ) : ℝ := ∑ i, Complex.normSq (v i)

/-- The recognized gate-name set of the dispatch in `run_simulation`. -/
def recognizedGateNames : List String :=
  ["H", "X", "Y", "Z", "S", "T", "RX", "RY", "RZ", "MEASURE", "CNOT", "SWAP", "CCNOT"]

/-- Column map realised by `create_controlled_gate_matrix` with the
`flip_target` operation, as a plain function on basis indices: flip the target
bit when every control bit is 1, otherwise the identity. -/
def ctrlPermFn (controls : List Int) (target : Int) (n : Nat) (i : Nat) : Nat :=
  let s := binStr n i
  if controls.all (fun c => s.getD c.toNat ' ' == '1') then
    binToNat (s.set target.toNat (if s.getD target.toNat ' ' = '1' then '0' else '1'))
  else i

/-- Column map realised by `create_swap_matrix`: exchange the two designated
bits when they differ, otherwise the identity. -/
def swapPermFn (qubit1 qubit2 : Int) (n : Nat) (i : Nat) : Nat :=
  let s := binStr n i
  if s.getD qubit1.toNat ' ' ≠ s.getD qubit2.toNat ' ' then
    binToNat ((s.set qubit1.toNat (s.getD qubit2.toNat ' ')).set qubit2.toNat
      (s.getD qubit1.toNat ' '))
  else i

/-- Matrix whose column `c` has its single 1 in row `σ c`. -/
def permMatrixOf {N : Nat} (σ : Nat → Nat) : CMatrix N :=
  fun r c => if (r : Nat) = σ (c : Nat) then 1 else 0

/-- A permutation matrix in the sense of the specification: every entry is 0
or 1, and every row and every column holds exactly one 1. -/
def IsPermMatrix {N : Nat} (M : CMatrix N) : Prop :=
  (∀ r c, M r c = 0 ∨ M r c = 1) ∧ (∀ c, ∃! r, M r c = 1) ∧ (∀ r, ∃! c, M r c = 1)

/-- Data-model preconditions on a gate (spec §3): all qubit indices lie in
`[0, qubit_count)` and the control set is disjoint from the target set. -/
def GateOK (n : Nat) (g : Gate) : Prop :=
  (∀ q ∈ g.targets, 0 ≤ q ∧ q < (n : Int)) ∧
  (∀ q ∈ g.controls, 0 ≤ q ∧ q < (n : Int)) ∧
  (∀ q ∈ g.controls, q ∉ g.targets)

/-! ### Concrete gates and circuits used as test inputs -/

/-- Hadamard on qubit 0. -/
def hGate : Gate := { gate := "H", targets := [0] }

/-- CNOT with control 0 and target 1. -/
def cnotGate01 : Gate := { gate := "CNOT", targets := [1], controls := [0] }

/-- The Bell-state circuit of the specification. -/
def bellCircuit : CircuitCreate := { name := "bell", qubits := 2, gates := [hGate, cnotGate01] }

/-- A gate with a name outside the recognized set. -/
def fooGate : Gate := { gate := "FOO", targets := [0] }

/-- One-qubit circuit holding only the unrecognized gate. -/
def fooCircuit : CircuitCreate := { name := "foo", qubits := 1, gates := [fooGate] }

/-- A rotation-looking gate about a nonexistent axis W. -/
def rwGate : Gate := { gate := "RW", targets := [0] }

/-- One-qubit circuit holding only the `RW` gate. -/
def rwCircuit : CircuitCreate := { name := "rw", qubits := 1, gates := [rwGate] }

/-- Hadamard aimed at qubit 5 of a 1-qubit register. -/
def hOOBGate : Gate := { gate := "H", targets := [5] }

/-- One-qubit circuit whose only gate targets a nonexistent qubit. -/
def hOOBCircuit : CircuitCreate := { name := "hoob", qubits := 1, gates := [hOOBGate] }

/-- CNOT whose control index 5 does not exist on a 1-qubit register. -/
def cnotOOBGate : Gate := { gate := "CNOT", targets := [0], controls := [5] }

/-- CNOT with an empty target list. -/
def cnotNoTargetGate : Gate := { gate := "CNOT", targets := [], controls := [0] }

/-- One-qubit circuit holding only the target-less CNOT. -/
def cnotNoTargetCircuit : CircuitCreate :=
  { name := "notarget", qubits := 1, gates := [cnotNoTargetGate] }

/-- A MEASURE gate. -/
def measureGate : Gate := { gate := "MEASURE", targets := [] }

/-- Pauli X on qubit 0. -/
def xGate : Gate := { gate := "X", targets := [0] }

/-- One-qubit circuit holding a single X gate. -/
def xCircuit : CircuitCreate := { name := "x", qubits := 1, gates := [xGate] }

/-- RX gate whose `parameters` mapping is absent (`None`). -/
def rxNoParamsGate : Gate := { gate := "RX", targets := [0], parameters := none }

/-- One-qubit circuit holding the parameterless RX gate. -/
def rxNoParamsCircuit : CircuitCreate :=
  { name := "rxnone", qubits := 1, gates := [rxNoParamsGate] }

/-- RX gate with a present but empty `parameters` mapping (no "theta" key). -/
def rxEmptyParamsGate : Gate := { gate := "RX", targets := [0], parameters := some [] }

/-- RX gate aimed at the nonexistent qubit 7 of a 1-qubit register, with its
`parameters` mapping absent (`None`). -/
def rxOOBNoParamsGate : Gate := { gate := "RX", targets := [7], parameters := none }

/-- One-qubit circuit holding only the out-of-range parameterless RX gate. -/
def rxOOBNoParamsCircuit : CircuitCreate :=
  { name := "rxoob", qubits := 1, gates := [rxOOBNoParamsGate] }

/-! ### Basic facts about the binary-string codec -/

theorem binStr_length (n i : Nat) : (binStr n i).length = n := by
  simp [binStr]

theorem binStr_getD (n i k : Nat) (h : k < n) (d : Char) :
    (binStr n i).getD k d = if Nat.testBit i (n - 1 - k) then '1' else '0' := by
  simp [binStr, List.getD_eq_getElem?_getD, List.getElem?_map, List.getElem?_range h]

theorem binStr_mem {n i : Nat} {c : Char} (h : c ∈ binStr n i) : c = '0' ∨ c = '1' := by
  simp only [binStr, List.mem_map, List.mem_range] at h
  obtain ⟨k, -, rfl⟩ := h
  by_cases hb : Nat.testBit i (n - 1 - k) <;> simp [hb]

theorem binStr_succ (n i : Nat) :
    binStr (n + 1) i = binStr n (i / 2) ++ [if Nat.testBit i 0 then '1' else '0'] := by
  unfold binStr
  rw [List.range_succ, List.map_append]
  congr 1
  · apply List.map_congr_left
    intro k hk
    rw [List.mem_range] at hk
    have h1 : n + 1 - 1 - k = (n - 1 - k) + 1 := by omega
    rw [h1, ← Nat.testBit_div_two]
  · simp

theorem binToNat_append (xs : List Char) (c : Char) :
    binToNat (xs ++ [c]) = 2 * binToNat xs + (if c = '1' then 1 else 0) := by
  simp [binToNat, List.foldl_append]

theorem binToNat_binStr {n i : Nat} (h : i < 2 ^ n) : binToNat (binStr n i) = i := by
  induction n generalizing i with
  | zero =>
      have : i = 0 := by simpa using h
      subst this
      simp [binStr, binToNat]
  | succ n ih =>
      have hdiv : i / 2 < 2 ^ n := by
        rw [pow_succ] at h
        omega
      rw [binStr_succ, binToNat_append, ih hdiv, Nat.testBit_zero]
      rcases Nat.mod_two_eq_zero_or_one i with h2 | h2 <;> simp [h2] <;> omega

theorem binToNat_lt (s : List Char) : binToNat s < 2 ^ s.length := by
  induction s using List.reverseRecOn with
  | nil => simp [binToNat]
  | append_singleton xs c ih =>
      rw [binToNat_append]
      simp only [List.length_append, List.length_singleton, pow_succ]
      by_cases hc : c = '1' <;> simp [hc] <;> omega

theorem binStr_binToNat {s : List Char} (hs : ∀ c ∈ s, c = '0' ∨ c = '1') :
    binStr s.length (binToNat s) = s := by
  induction s using List.reverseRecOn with
  | nil => simp [binStr]
  | append_singleton xs c ih =>
      have hxs : ∀ d ∈ xs, d = '0' ∨ d = '1' := fun d hd => hs d (by simp [hd])
      have hc : c = '0' ∨ c = '1' := hs c (by simp)
      have hv : (if c = '1' then 1 else 0) = binToNat (xs ++ [c]) % 2 := by
        rw [binToNat_append]
        rcases hc with h | h <;> simp [h] <;> omega
      have hd2 : binToNat (xs ++ [c]) / 2 = binToNat xs := by
        rw [binToNat_append]
        rcases hc with h | h <;> simp [h] <;> omega
      have hlen : (xs ++ [c]).length = xs.length + 1 := by simp
      rw [hlen, binStr_succ, hd2, ih hxs]
      congr 1
      rw [Nat.testBit_zero, ← hv]
      rcases hc with h | h <;> simp [h]

theorem set_getD_self {s : List Char} {k : Nat} (h : k < s.length) (d : Char) :
    s.set k (s.getD k d) = s := by
  apply List.ext_getElem (by simp)
  intro n h1 h2
  rw [List.getElem_set]
  split
  · next heq => subst heq; exact List.getD_eq_getElem s d h
  · rfl

/-! ### Reduction of the `Except` monad and of the Python accessors -/

theorem exBind_ok {ε α β : Type} (x : α) (f : α → Except ε β) :
    (Except.ok x >>= f) = f x := rfl

theorem exBind_error {ε α β : Type} (e : ε) (f : α → Except ε β) :
    ((Except.error e : Except ε α) >>= f) = Except.error e := rfl

theorem pyStrGet_inRange {s : List Char} {idx : Int} (h0 : 0 ≤ idx)
    (h1 : idx < s.length) (d : Char) :
    pyStrGet s idx = Except.ok (s.getD idx.toNat d) := by
  unfold pyStrGet
  rw [dif_pos ⟨h0, h1⟩]
  congr 1
  rw [List.get_eq_getElem, List.getD_eq_getElem s d (by omega)]

theorem pyStrGet_err {s : List Char} {idx : Int}
    (h : idx < -(s.length : Int) ∨ (s.length : Int) ≤ idx) :
    pyStrGet s idx = Except.error SimError.indexError := by
  unfold pyStrGet
  rw [dif_neg (by omega), dif_neg (by omega)]

theorem pyListSet_inRange {s : List Char} {idx : Int} (h0 : 0 ≤ idx)
    (h1 : idx < s.length) (c : Char) :
    pyListSet s idx c = Except.ok (s.set idx.toNat c) := by
  unfold pyListSet
  rw [if_pos ⟨h0, h1⟩]

theorem checkControls_inRange {s : List Char} {controls : List Int}
    (h : ∀ c ∈ controls, 0 ≤ c ∧ c < s.length) :
    checkControls s controls =
      Except.ok (controls.all fun c => s.getD c.toNat ' ' == '1') := by
  induction controls with
  | nil => simp [checkControls]
  | cons c rest ih =>
      obtain ⟨h0, h1⟩ := h c (by simp)
      rw [checkControls, pyStrGet_inRange h0 h1 ' ', exBind_ok]
      by_cases hc : s.getD c.toNat ' ' = '1'
      · rw [if_pos hc, ih (fun a ha => h a (by simp [ha]))]
        congr 1
        rw [List.all_cons]
        have hb : (s.getD c.toNat ' ' == '1') = true := beq_iff_eq.mpr hc
        rw [hb, Bool.true_and]
      · rw [if_neg hc]
        congr 1
        rw [List.all_cons]
        have hb : (s.getD c.toNat ' ' == '1') = false := by
          simp only [beq_eq_false_iff_ne, ne_eq]
          exact hc
        rw [hb, Bool.false_and]

theorem flip_target_inRange {s : List Char} {t : Int} (h0 : 0 ≤ t) (h1 : t < s.length) :
    flip_target s t =
      Except.ok (binToNat (s.set t.toNat (if s.getD t.toNat ' ' = '1' then '0' else '1'))) := by
  unfold flip_target
  rw [pyStrGet_inRange h0 h1 ' ', exBind_ok, pyListSet_inRange h0 h1, exBind_ok]

/-! ### Characterizing the permutation-matrix builders -/

theorem exceptFoldl_congr {ε σ α : Type} {f g : σ → α → Except ε σ} {l : List α}
    {init : σ} (h : ∀ acc a, a ∈ l → f acc a = g acc a) :
    l.foldlM f init = l.foldlM g init := by
  induction l generalizing init with
  | nil => rfl
  | cons x xs ih =>
      rw [List.foldlM_cons, List.foldlM_cons, h init x (by simp)]
      cases hx : g init x with
      | error e => rw [exBind_error, exBind_error]
      | ok s => rw [exBind_ok, exBind_ok]; exact ih (fun acc a ha => h acc a (by simp [ha]))

theorem foldl_setEntry {N : Nat} (σ : Nat → Nat) (l : List Nat) (M0 : CMatrix N) :
    l.foldlM (fun M i => (Except.ok (setEntryN M (σ i) i 1) : Except SimError (CMatrix N))) M0 =
      Except.ok (fun (r c : Fin N) =>
        if (c : Nat) ∈ l ∧ (r : Nat) = σ (c : Nat) then 1 else M0 r c) := by
  induction l generalizing M0 with
  | nil =>
      rw [List.foldlM_nil]
      congr 1
  | cons x xs ih =>
      rw [List.foldlM_cons, exBind_ok, ih]
      congr 1
      funext r c
      simp only [setEntryN, List.mem_cons]
      by_cases hcx : (c : Nat) = x <;> by_cases hcxs : (c : Nat) ∈ xs <;>
        by_cases hr : (r : Nat) = σ (c : Nat) <;> simp_all

theorem create_controlled_eq {n : Nat} {controls : List Int} {target : Int}
    (hc : ∀ c ∈ controls, 0 ≤ c ∧ c < n) (ht0 : 0 ≤ target) (ht1 : target < n) :
    create_controlled_gate_matrix controls target n flip_target =
      Except.ok (permMatrixOf (ctrlPermFn controls target n)) := by
  unfold create_controlled_gate_matrix
  rw [exceptFoldl_congr
      (g := fun M i => Except.ok (setEntryN M (ctrlPermFn controls target n i) i 1))]
  · rw [foldl_setEntry]
    congr 1
    funext r c
    simp [permMatrixOf, List.mem_range, c.isLt]
  · intro acc a _
    have hlen : (binStr n a).length = n := binStr_length n a
    dsimp only
    rw [checkControls_inRange (by rw [hlen]; exact hc)]
    rw [exBind_ok]
    by_cases hall : (controls.all fun c => (binStr n a).getD c.toNat ' ' == '1') = true
    · rw [if_pos hall, flip_target_inRange ht0 (by rw [hlen]; exact ht1), exBind_ok]
      have : ctrlPermFn controls target n a =
          binToNat ((binStr n a).set target.toNat
            (if (binStr n a).getD target.toNat ' ' = '1' then '0' else '1')) := by
        unfold ctrlPermFn
        rw [if_pos hall]
      rw [this]
    · rw [if_neg hall]
      have : ctrlPermFn controls target n a = a := by
        unfold ctrlPermFn
        rw [if_neg hall]
      rw [this]

theorem create_swap_eq {n : Nat} {qubit1 qubit2 : Int}
    (h10 : 0 ≤ qubit1) (h11 : qubit1 < n) (h20 : 0 ≤ qubit2) (h21 : qubit2 < n) :
    create_swap_matrix qubit1 qubit2 n =
      Except.ok (permMatrixOf (swapPermFn qubit1 qubit2 n)) := by
  unfold create_swap_matrix
  rw [exceptFoldl_congr
      (g := fun M i => Except.ok (setEntryN M (swapPermFn qubit1 qubit2 n i) i 1))]
  · rw [foldl_setEntry]
    congr 1
    funext r c
    simp [permMatrixOf, List.mem_range, c.isLt]
  · intro acc a _
    have hlen : (binStr n a).length = n := binStr_length n a
    dsimp only
    rw [pyStrGet_inRange h10 (by rw [hlen]; exact h11) ' ', exBind_ok]
    rw [pyStrGet_inRange h20 (by rw [hlen]; exact h21) ' ', exBind_ok]
    by_cases hne : (binStr n a).getD qubit1.toNat ' ' ≠ (binStr n a).getD qubit2.toNat ' '
    · rw [if_pos hne]
      rw [pyListSet_inRange h10 (by rw [hlen]; exact h11), exBind_ok]
      rw [pyListSet_inRange h20 (by simp [hlen]; exact h21), exBind_ok]
      have : swapPermFn qubit1 qubit2 n a =
          binToNat (((binStr n a).set qubit1.toNat ((binStr n a).getD qubit2.toNat ' ')).set
            qubit2.toNat ((binStr n a).getD qubit1.toNat ' ')) := by
        unfold swapPermFn
        rw [if_pos hne]
      rw [this]
    · rw [if_neg hne]
      have : swapPermFn qubit1 qubit2 n a = a := by
        unfold swapPermFn
        rw [if_neg hne]
      rw [this]

/-! ### The column maps are involutive permutations of the basis -/

theorem getD_set_self {s : List Char} {k : Nat} (h : k < s.length) (c d : Char) :
    (s.set k c).getD k d = c := by
  rw [List.getD_eq_getElem _ d (by simp [h]), List.getElem_set, if_pos rfl]

theorem getD_set_ne {s : List Char} {k m : Nat} (hne : k ≠ m) (hm : m < s.length)
    (c d : Char) :
    (s.set k c).getD m d = s.getD m d := by
  rw [List.getD_eq_getElem _ d (by simp [hm]), List.getElem_set, if_neg hne,
    List.getD_eq_getElem _ d hm]

theorem getD_mem {s : List Char} {k : Nat} (h : k < s.length) (d : Char) :
    s.getD k d ∈ s := by
  rw [List.getD_eq_getElem _ d h]
  exact List.getElem_mem h

theorem flipChar_binary (ch : Char) : (if ch = '1' then '0' else '1') = '0' ∨
    (if ch = '1' then '0' else '1') = '1' := by
  by_cases h : ch = '1' <;> simp [h]

theorem ctrlPermFn_lt {n : Nat} (controls : List Int) (target : Int) {i : Nat}
    (hi : i < 2 ^ n) : ctrlPermFn controls target n i < 2 ^ n := by
  unfold ctrlPermFn
  dsimp only
  split
  · have h := binToNat_lt ((binStr n i).set target.toNat
      (if (binStr n i).getD target.toNat ' ' = '1' then '0' else '1'))
    simpa [List.length_set, binStr_length] using h
  · exact hi

theorem swapPermFn_lt {n : Nat} (qubit1 qubit2 : Int) {i : Nat}
    (hi : i < 2 ^ n) : swapPermFn qubit1 qubit2 n i < 2 ^ n := by
  unfold swapPermFn
  dsimp only
  split
  · have h := binToNat_lt (((binStr n i).set qubit1.toNat
      ((binStr n i).getD qubit2.toNat ' ')).set qubit2.toNat
      ((binStr n i).getD qubit1.toNat ' '))
    simpa [List.length_set, binStr_length] using h
  · exact hi

theorem ctrlPermFn_invol {n : Nat} {controls : List Int} {target : Int}
    (hc : ∀ c ∈ controls, 0 ≤ c ∧ c < n) (ht0 : 0 ≤ target) (ht1 : target < n)
    (hdis : ∀ c ∈ controls, c ≠ target) {i : Nat} (hi : i < 2 ^ n) :
    ctrlPermFn controls target n (ctrlPermFn controls target n i) = i := by
  have htn : target.toNat < n := by omega
  have hslen : (binStr n i).length = n := binStr_length n i
  have htlen : target.toNat < (binStr n i).length := by omega
  by_cases hall : (controls.all fun c => (binStr n i).getD c.toNat ' ' == '1') = true
  · have hstep1 : ctrlPermFn controls target n i =
        binToNat ((binStr n i).set target.toNat
          (if (binStr n i).getD target.toNat ' ' = '1' then '0' else '1')) := by
      unfold ctrlPermFn
      dsimp only
      rw [if_pos hall]
    set ch := (binStr n i).getD target.toNat ' ' with hch
    set ch2 : Char := if ch = '1' then '0' else '1' with hch2
    set s2 := (binStr n i).set target.toNat ch2 with hs2
    have hs2len : s2.length = n := by
      rw [hs2, List.length_set, hslen]
    have hs2bin : ∀ c ∈ s2, c = '0' ∨ c = '1' := by
      intro c hcm
      rcases List.mem_or_eq_of_mem_set hcm with h | h
      · exact binStr_mem h
      · subst h; exact flipChar_binary ch
    have hbs : binStr n (binToNat s2) = s2 := by
      have h := binStr_binToNat hs2bin
      rwa [hs2len] at h
    have hall2 : (controls.all fun c => (binStr n (binToNat s2)).getD c.toNat ' ' == '1') = true := by
      rw [hbs]
      rw [List.all_eq_true] at hall ⊢
      intro c hcm
      have hcr := hc c hcm
      have hne : target.toNat ≠ c.toNat := by
        have := hdis c hcm
        omega
      rw [hs2, getD_set_ne hne (by omega : c.toNat < (binStr n i).length)]
      exact hall c hcm
    rw [hstep1]
    unfold ctrlPermFn
    dsimp only
    rw [if_pos hall2, hbs]
    have hgd : s2.getD target.toNat ' ' = ch2 := by
      rw [hs2, getD_set_self htlen]
    rw [hgd]
    have hflip2 : (if ch2 = '1' then '0' else '1') = ch := by
      have hchbin : ch = '0' ∨ ch = '1' := by
        rw [hch]
        exact binStr_mem (getD_mem htlen ' ')
      rcases hchbin with h | h <;> rw [hch2, h] <;> decide
    rw [hflip2]
    have hback : s2.set target.toNat ch = binStr n i := by
      rw [hs2, List.set_set, hch, set_getD_self htlen]
    rw [hback]
    exact binToNat_binStr hi
  · unfold ctrlPermFn
    dsimp only
    rw [if_neg hall, if_neg hall]

theorem swapPermFn_invol {n : Nat} {qubit1 qubit2 : Int}
    (h10 : 0 ≤ qubit1) (h11 : qubit1 < n) (h20 : 0 ≤ qubit2) (h21 : qubit2 < n)
    {i : Nat} (hi : i < 2 ^ n) :
    swapPermFn qubit1 qubit2 n (swapPermFn qubit1 qubit2 n i) = i := by
  have hq1 : qubit1.toNat < n := by omega
  have hq2 : qubit2.toNat < n := by omega
  have hslen : (binStr n i).length = n := binStr_length n i
  have h1len : qubit1.toNat < (binStr n i).length := by omega
  have h2len : qubit2.toNat < (binStr n i).length := by omega
  set c1 := (binStr n i).getD qubit1.toNat ' ' with hc1
  set c2 := (binStr n i).getD qubit2.toNat ' ' with hc2
  by_cases hne : c1 ≠ c2
  · have hqq : qubit1.toNat ≠ qubit2.toNat := by
      intro h
      apply hne
      rw [hc1, hc2, h]
    have hstep1 : swapPermFn qubit1 qubit2 n i =
        binToNat (((binStr n i).set qubit1.toNat c2).set qubit2.toNat c1) := by
      unfold swapPermFn
      dsimp only
      rw [if_pos hne]
    set s2 := ((binStr n i).set qubit1.toNat c2).set qubit2.toNat c1 with hs2
    have hs2len : s2.length = n := by
      rw [hs2, List.length_set, List.length_set, hslen]
    have hs2bin : ∀ c ∈ s2, c = '0' ∨ c = '1' := by
      intro c hcm
      rcases List.mem_or_eq_of_mem_set hcm with h | h
      · rcases List.mem_or_eq_of_mem_set h with h2 | h2
        · exact binStr_mem h2
        · subst h2
          exact binStr_mem (getD_mem h2len ' ')
      · subst h
        exact binStr_mem (getD_mem h1len ' ')
    have hbs : binStr n (binToNat s2) = s2 := by
      have h := binStr_binToNat hs2bin
      rwa [hs2len] at h
    have hg1 : s2.getD qubit1.toNat ' ' = c2 := by
      rw [hs2, getD_set_ne (Ne.symm hqq) (by rw [List.length_set]; exact h1len),
        getD_set_self h1len]
    have hg2 : s2.getD qubit2.toNat ' ' = c1 := by
      rw [hs2, getD_set_self (by rw [List.length_set]; exact h2len)]
    rw [hstep1]
    unfold swapPermFn
    dsimp only
    rw [hbs, hg1, hg2, if_pos (Ne.symm hne)]
    have hrw : ((s2.set qubit1.toNat c1).set qubit2.toNat c2) = binStr n i := by
      rw [hs2]
      apply List.ext_getElem (by simp [List.length_set])
      intro m hmL hmR
      have hmlen : m < (binStr n i).length := hmR
      simp only [List.getElem_set]
      by_cases hq2m : qubit2.toNat = m
      · rw [if_pos hq2m, hc2, hq2m, List.getD_eq_getElem _ ' ' hmlen]
      · rw [if_neg hq2m]
        by_cases hq1m : qubit1.toNat = m
        · rw [if_pos hq1m, hc1, hq1m, List.getD_eq_getElem _ ' ' hmlen]
        · rw [if_neg hq1m, if_neg hq2m, if_neg hq1m]
    rw [hrw]
    exact binToNat_binStr hi
  · unfold swapPermFn
    dsimp only
    rw [if_neg hne, if_neg hne]

/-! ### Permutation matrices: action on vectors and the permutation property -/

theorem permMatrixOf_mulVec {N : Nat} {σ : Nat → Nat} (hlt : ∀ i, i < N → σ i < N)
    (hinv : ∀ i, i < N → σ (σ i) = i) (v : Fin N → ℂ) (j : Fin N) :
    (permMatrixOf σ (N := N)).mulVec v j = v ⟨σ (j : Nat), hlt _ j.isLt⟩ := by
  show (∑ i, permMatrixOf σ j i * v i) = _
  rw [Finset.sum_eq_single (⟨σ (j : Nat), hlt _ j.isLt⟩ : Fin N)]
  · show (if (j : Nat) = σ (σ (j : Nat)) then (1 : ℂ) else 0) * _ = _
    rw [if_pos (hinv _ j.isLt).symm, one_mul]
  · intro b _ hbne
    show (if (j : Nat) = σ (b : Nat) then (1 : ℂ) else 0) * v b = 0
    rw [if_neg, zero_mul]
    intro hEq
    apply hbne
    apply Fin.ext
    show (b : Nat) = σ (j : Nat)
    rw [hEq, hinv _ b.isLt]
  · intro habs
    exact absurd (Finset.mem_univ _) habs

theorem norm2_comp_perm {N : Nat} {σ : Nat → Nat} (hlt : ∀ i, i < N → σ i < N)
    (hinv : ∀ i, i < N → σ (σ i) = i) (v : Fin N → ℂ) :
    norm2 (fun j : Fin N => v ⟨σ (j : Nat), hlt _ j.isLt⟩) = norm2 v := by
  unfold norm2
  have hInv : Function.Involutive (fun j : Fin N => (⟨σ (j : Nat), hlt _ j.isLt⟩ : Fin N)) := by
    intro j
    apply Fin.ext
    exact hinv _ j.isLt
  exact Fintype.sum_bijective _ hInv.bijective _ _ (fun x => rfl)

theorem isPermMatrix_permMatrixOf {N : Nat} {σ : Nat → Nat} (hlt : ∀ i, i < N → σ i < N)
    (hinv : ∀ i, i < N → σ (σ i) = i) :
    IsPermMatrix (permMatrixOf σ : CMatrix N) := by
  refine ⟨fun r c => ?_, fun c => ?_, fun r => ?_⟩
  · unfold permMatrixOf
    split
    · right; rfl
    · left; rfl
  · refine ⟨⟨σ (c : Nat), hlt _ c.isLt⟩, ?_, ?_⟩
    · show (if σ (c : Nat) = σ (c : Nat) then (1 : ℂ) else 0) = 1
      rw [if_pos rfl]
    · intro r hr
      have hr2 : (if (r : Nat) = σ (c : Nat) then (1 : ℂ) else 0) = 1 := hr
      apply Fin.ext
      show (r : Nat) = σ (c : Nat)
      by_contra hne
      rw [if_neg hne] at hr2
      exact zero_ne_one hr2
  · refine ⟨⟨σ (r : Nat), hlt _ r.isLt⟩, ?_, ?_⟩
    · show (if (r : Nat) = σ (σ (r : Nat)) then (1 : ℂ) else 0) = 1
      rw [if_pos (hinv _ r.isLt).symm]
    · intro c hcEq
      have hc2 : (if (r : Nat) = σ (c : Nat) then (1 : ℂ) else 0) = 1 := hcEq
      apply Fin.ext
      show (c : Nat) = σ (r : Nat)
      by_cases hcond : (r : Nat) = σ (c : Nat)
      · rw [hcond, hinv _ c.isLt]
      · rw [if_neg hcond] at hc2
        exact absurd hc2 zero_ne_one

/-! ### Unitarity of the expanded single-qubit operators -/

theorem npKron_conjT {a b : Nat} (A : CMatrix a) (B : CMatrix b) :
    (npKron A B).conjTranspose = npKron A.conjTranspose B.conjTranspose := by
  unfold npKron
  rw [Matrix.conjTranspose_reindex]
  congr 1
  ext ij kl
  rcases ij with ⟨i, j⟩
  rcases kl with ⟨k, l⟩
  simp only [Matrix.conjTranspose_apply, Matrix.kroneckerMap_apply, star_mul]
  ring

theorem npKron_mul {a b : Nat} (A B : CMatrix a) (C D : CMatrix b) :
    npKron A C * npKron B D = npKron (A * B) (C * D) := by
  unfold npKron
  rw [Matrix.reindex_apply, Matrix.reindex_apply, Matrix.reindex_apply,
    Matrix.submatrix_mul_equiv _ _ _ finProdFinEquiv.symm _, ← Matrix.mul_kronecker_mul]

theorem npKron_one {a b : Nat} : npKron (1 : CMatrix a) (1 : CMatrix b) = 1 := by
  unfold npKron
  rw [Matrix.one_kronecker_one, Matrix.reindex_apply, Matrix.submatrix_one_equiv]

theorem unitary_reindex {m k : Nat} (e : Fin m ≃ Fin k) {M : CMatrix m}
    (h : M.conjTranspose * M = 1) :
    (Matrix.reindex e e M).conjTranspose * Matrix.reindex e e M = 1 := by
  rw [Matrix.conjTranspose_reindex, Matrix.reindex_apply, Matrix.reindex_apply,
    Matrix.submatrix_mul_equiv _ _ _ e.symm _, h, Matrix.submatrix_one_equiv]

theorem one_unitary {k : Nat} : (1 : CMatrix k).conjTranspose * 1 = 1 := by
  rw [Matrix.conjTranspose_one, one_mul]

theorem buildFull_unitary (op : CMatrix 2) (target : Int)
    (hop : op.conjTranspose * op = 1) (m : Nat) :
    (buildFull op target m).conjTranspose * buildFull op target m = 1 := by
  induction m with
  | zero =>
      unfold buildFull
      apply unitary_reindex
      by_cases h : target = 0
      · rw [if_pos h]; exact hop
      · rw [if_neg h]; exact one_unitary
  | succ m ih =>
      unfold buildFull
      apply unitary_reindex
      rw [npKron_conjT, npKron_mul, ih]
      by_cases h : ((m + 1 : Nat) : Int) = target
      · rw [if_pos h, hop, npKron_one]
      · rw [if_neg h, one_unitary, npKron_one]

theorem create_full_gate_matrix_unitary (op : CMatrix 2) (target : Int) (n : Nat)
    (hop : op.conjTranspose * op = 1) :
    (create_full_gate_matrix op target n).conjTranspose * create_full_gate_matrix op target n
      = 1 := by
  match n with
  | 0 => exact one_unitary
  | m + 1 => exact buildFull_unitary op target hop m

theorem dot_star_self {N : Nat} (v : Fin N → ℂ) :
    Matrix.dotProduct (star v) v = ((norm2 v : ℝ) : ℂ) := by
  unfold norm2
  rw [Complex.ofReal_sum]
  apply Finset.sum_congr rfl
  intro i _
  simp only [Pi.star_apply, RCLike.star_def]
  exact (Complex.normSq_eq_conj_mul_self).symm

theorem norm2_mulVec_unitary {N : Nat} {M : CMatrix N}
    (h : M.conjTranspose * M = 1) (v : Fin N → ℂ) :
    norm2 (M.mulVec v) = norm2 v := by
  have key : Matrix.dotProduct (star (M.mulVec v)) (M.mulVec v) =
      Matrix.dotProduct (star v) v := by
    rw [Matrix.star_mulVec, Matrix.dotProduct_mulVec, Matrix.vecMul_vecMul, h,
      Matrix.vecMul_one]
  rw [dot_star_self, dot_star_self] at key
  exact Complex.ofReal_inj.mp key

/-! ### The 2 × 2 gate library consists of unitary matrices -/

theorem H_unitary : H_matrix.conjTranspose * H_matrix = 1 := by
  have h2 : ((Real.sqrt 2 : ℝ) : ℂ) * ((Real.sqrt 2 : ℝ) : ℂ) = 2 := by
    rw [← Complex.ofReal_mul, Real.mul_self_sqrt (by norm_num : (0 : ℝ) ≤ 2)]
    norm_num
  have hne : ((Real.sqrt 2 : ℝ) : ℂ) ≠ 0 := by
    rw [Complex.ofReal_ne_zero]
    exact Real.sqrt_ne_zero'.mpr (by norm_num)
  ext i j
  fin_cases i <;> fin_cases j <;>
    simp [H_matrix, Matrix.mul_apply, Matrix.conjTranspose_apply, Fin.sum_univ_two,
      Matrix.smul_apply, Matrix.one_apply, Complex.conj_ofReal, map_inv₀, smul_eq_mul] <;>
    first
    | done
    | (field_simp
       rw [h2]
       try norm_num)

theorem X_unitary : X_matrix.conjTranspose * X_matrix = 1 := by
  ext i j
  fin_cases i <;> fin_cases j <;>
    simp [X_matrix, Matrix.mul_apply, Matrix.conjTranspose_apply, Fin.sum_univ_two,
      Matrix.one_apply]

theorem Y_unitary : Y_matrix.conjTranspose * Y_matrix = 1 := by
  ext i j
  fin_cases i <;> fin_cases j <;>
    simp [Y_matrix, Matrix.mul_apply, Matrix.conjTranspose_apply, Fin.sum_univ_two,
      Matrix.one_apply, Complex.conj_I]

theorem Z_unitary : Z_matrix.conjTranspose * Z_matrix = 1 := by
  ext i j
  fin_cases i <;> fin_cases j <;>
    simp [Z_matrix, Matrix.mul_apply, Matrix.conjTranspose_apply, Fin.sum_univ_two,
      Matrix.one_apply]

theorem S_unitary : S_matrix.conjTranspose * S_matrix = 1 := by
  ext i j
  fin_cases i <;> fin_cases j <;>
    simp [S_matrix, Matrix.mul_apply, Matrix.conjTranspose_apply, Fin.sum_univ_two,
      Matrix.one_apply, Complex.conj_I]

theorem T_unitary : T_matrix.conjTranspose * T_matrix = 1 := by
  have hT : (starRingEnd ℂ) (Complex.exp (Complex.I * Real.pi / 4)) *
      Complex.exp (Complex.I * Real.pi / 4) = 1 := by
    rw [← Complex.exp_conj, ← Complex.exp_add]
    have hconj : (starRingEnd ℂ) (Complex.I * Real.pi / 4) = -(Complex.I * Real.pi / 4) := by
      rw [map_div₀, map_mul, Complex.conj_I, Complex.conj_ofReal, map_ofNat]
      ring
    rw [hconj, neg_add_cancel, Complex.exp_zero]
  ext i j
  fin_cases i <;> fin_cases j <;>
    simp [T_matrix, Matrix.mul_apply, Matrix.conjTranspose_apply, Fin.sum_univ_two,
      Matrix.one_apply, hT]

theorem rotation_unitary {axis : String} {theta : ℝ} {M : CMatrix 2}
    (h : create_rotation_matrix axis theta = Except.ok M) :
    M.conjTranspose * M = 1 := by
  have hcs : ((Real.cos (theta / 2) : ℂ)) * Real.cos (theta / 2) +
      (Real.sin (theta / 2) : ℂ) * Real.sin (theta / 2) = 1 := by
    rw [← Complex.ofReal_mul, ← Complex.ofReal_mul, ← Complex.ofReal_add,
      ← Complex.ofReal_one, Complex.ofReal_inj]
    nlinarith [Real.sin_sq_add_cos_sq (theta / 2)]
  unfold create_rotation_matrix at h
  dsimp only at h
  by_cases hx : pyUpper axis = "X"
  · rw [if_pos hx] at h
    injection h with h
    subst h
    ext i j
    fin_cases i <;> fin_cases j <;>
      simp [Matrix.mul_apply, Matrix.conjTranspose_apply, Fin.sum_univ_two, Matrix.one_apply,
        Complex.conj_I, Complex.conj_ofReal, map_mul, map_neg,
        -Complex.ofReal_cos, -Complex.ofReal_sin] <;>
      first
      | done
      | linear_combination hcs -
          (Real.sin (theta / 2) : ℂ) * (Real.sin (theta / 2) : ℂ) * Complex.I_sq
      | linear_combination hcs +
          (Real.sin (theta / 2) : ℂ) * (Real.sin (theta / 2) : ℂ) * Complex.I_sq
      | ring
  · rw [if_neg hx] at h
    by_cases hy : pyUpper axis = "Y"
    · rw [if_pos hy] at h
      injection h with h
      subst h
      ext i j
      fin_cases i <;> fin_cases j <;>
        simp [Matrix.mul_apply, Matrix.conjTranspose_apply, Fin.sum_univ_two, Matrix.one_apply,
          Complex.conj_ofReal, map_neg, -Complex.ofReal_cos, -Complex.ofReal_sin] <;>
        first
        | done
        | linear_combination hcs
        | ring
    · rw [if_neg hy] at h
      by_cases hz : pyUpper axis = "Z"
      · rw [if_pos hz] at h
        injection h with h
        subst h
        have hc1 : (starRingEnd ℂ) (-(Complex.I * (theta : ℂ)) / 2) =
            -(-(Complex.I * (theta : ℂ)) / 2) := by
          rw [map_div₀, map_neg, map_mul, Complex.conj_I, Complex.conj_ofReal, map_ofNat]
          ring
        have hc2 : (starRingEnd ℂ) (Complex.I * theta / 2) = -(Complex.I * theta / 2) := by
          rw [map_div₀, map_mul, Complex.conj_I, Complex.conj_ofReal, map_ofNat]
          ring
        have he1 : (starRingEnd ℂ) (Complex.exp (-(Complex.I * (theta : ℂ)) / 2)) *
            Complex.exp (-(Complex.I * (theta : ℂ)) / 2) = 1 := by
          rw [← Complex.exp_conj, ← Complex.exp_add, hc1, neg_add_cancel, Complex.exp_zero]
        have he2 : (starRingEnd ℂ) (Complex.exp (Complex.I * theta / 2)) *
            Complex.exp (Complex.I * theta / 2) = 1 := by
          rw [← Complex.exp_conj, ← Complex.exp_add, hc2, neg_add_cancel, Complex.exp_zero]
        ext i j
        fin_cases i <;> fin_cases j <;>
          simp [Matrix.mul_apply, Matrix.conjTranspose_apply, Fin.sum_univ_two,
            Matrix.one_apply, he1, he2]
      · rw [if_neg hz] at h
        exact absurd h (by simp)

/-! ### Reduction lemmas for `applyGate`, one per dispatch branch -/

theorem norm2_mulVec_perm {N : Nat} {σ : Nat → Nat} (hlt : ∀ i, i < N → σ i < N)
    (hinv : ∀ i, i < N → σ (σ i) = i) (v : Fin N → ℂ) :
    norm2 ((permMatrixOf σ (N := N)).mulVec v) = norm2 v := by
  have hfun : (permMatrixOf σ (N := N)).mulVec v =
      fun j : Fin N => v ⟨σ (j : Nat), hlt _ j.isLt⟩ :=
    funext (permMatrixOf_mulVec hlt hinv v)
  rw [hfun]
  exact norm2_comp_perm hlt hinv v

theorem norm2_initState (n : Nat) : norm2 (initState n) = 1 := by
  unfold norm2 initState
  rw [Finset.sum_eq_single (⟨0, Nat.pos_pow_of_pos n (by norm_num)⟩ : Fin (2 ^ n))]
  · simp
  · intro b _ hbne
    have : (b : Nat) ≠ 0 := by
      intro h0
      exact hbne (Fin.ext h0)
    simp [this]
  · intro habs
    exact absurd (Finset.mem_univ _) habs

theorem notFixed_of_rotName {s : String} (h : s ∈ (["RX", "RY", "RZ"] : List String)) :
    s ∉ (["H", "X", "Y", "Z", "S", "T"] : List String) := by
  simp only [List.mem_cons, List.not_mem_nil, or_false] at h
  rcases h with rfl | rfl | rfl <;> decide

theorem notFixed_of_ctrlName {s : String} (h : s ∈ (["CNOT", "SWAP", "CCNOT"] : List String)) :
    s ∉ (["H", "X", "Y", "Z", "S", "T"] : List String) := by
  simp only [List.mem_cons, List.not_mem_nil, or_false] at h
  rcases h with rfl | rfl | rfl <;> decide

theorem notRot_of_ctrlName {s : String} (h : s ∈ (["CNOT", "SWAP", "CCNOT"] : List String)) :
    s ∉ (["RX", "RY", "RZ"] : List String) := by
  simp only [List.mem_cons, List.not_mem_nil, or_false] at h
  rcases h with rfl | rfl | rfl <;> decide

theorem notMeasure_of_ctrlName {s : String} (h : s ∈ (["CNOT", "SWAP", "CCNOT"] : List String)) :
    s ≠ "MEASURE" := by
  simp only [List.mem_cons, List.not_mem_nil, or_false] at h
  rcases h with rfl | rfl | rfl <;> decide

theorem applyGate_unknown {n : Nat} {g : Gate} (sv : QState n)
    (h : pyUpper g.gate ∉ recognizedGateNames) :
    applyGate n sv g = Except.ok sv := by
  have h1 : pyUpper g.gate ∉ (["H", "X", "Y", "Z", "S", "T"] : List String) := by
    intro hmem
    apply h
    unfold recognizedGateNames
    simp only [List.mem_cons, List.not_mem_nil, or_false] at hmem ⊢
    tauto
  have h2 : pyUpper g.gate ∉ (["RX", "RY", "RZ"] : List String) := by
    intro hmem
    apply h
    unfold recognizedGateNames
    simp only [List.mem_cons, List.not_mem_nil, or_false] at hmem ⊢
    tauto
  have h3 : pyUpper g.gate ≠ "MEASURE" := by
    intro hmem
    apply h
    unfold recognizedGateNames
    simp only [List.mem_cons, List.not_mem_nil, or_false]
    tauto
  have h4 : pyUpper g.gate ∉ (["CNOT", "SWAP", "CCNOT"] : List String) := by
    intro hmem
    apply h
    unfold recognizedGateNames
    simp only [List.mem_cons, List.not_mem_nil, or_false] at hmem ⊢
    tauto
  unfold applyGate
  dsimp only
  rw [if_neg h1, if_neg h2, if_neg h3, if_neg h4]

theorem applyGate_measure {n : Nat} {g : Gate} (sv : QState n)
    (h : pyUpper g.gate = "MEASURE") :
    applyGate n sv g = Except.ok sv := by
  unfold applyGate
  dsimp only
  rw [h]
  rw [if_neg (by decide), if_neg (by decide), if_pos rfl]

theorem applyGate_fixed {n : Nat} {g : Gate} (sv : QState n) {t : Int} {ts : List Int}
    (hname : pyUpper g.gate ∈ (["H", "X", "Y", "Z", "S", "T"] : List String))
    (htg : g.targets = t :: ts) :
    ∃ op : CMatrix 2, op.conjTranspose * op = 1 ∧
      applyGate n sv g = Except.ok ((create_full_gate_matrix op t n).mulVec sv) := by
  unfold applyGate
  dsimp only
  rw [if_pos hname, htg]
  refine ⟨_, ?_, rfl⟩
  split_ifs <;>
    first
    | exact H_unitary
    | exact X_unitary
    | exact Y_unitary
    | exact Z_unitary
    | exact S_unitary
    | exact T_unitary

theorem applyGate_fixed_noTargets {n : Nat} {g : Gate} (sv : QState n)
    (hname : pyUpper g.gate ∈ (["H", "X", "Y", "Z", "S", "T"] : List String))
    (htg : g.targets = []) :
    applyGate n sv g = Except.error SimError.attributeError := by
  unfold applyGate
  dsimp only
  rw [if_pos hname, htg]

theorem applyGate_rot {n : Nat} {g : Gate} (sv : QState n)
    (hname : pyUpper g.gate ∈ (["RX", "RY", "RZ"] : List String)) :
    applyGate n sv g = (do
      let theta ← getTheta g.parameters
      let op ← create_rotation_matrix
        (String.mk [((pyUpper g.gate).data.getLast?).getD ' ']) theta
      let t ← listGetI g.targets 0
      Except.ok ((create_full_gate_matrix op t n).mulVec sv)) := by
  unfold applyGate
  dsimp only
  rw [if_neg (notFixed_of_rotName hname), if_pos hname]

theorem applyGate_ctrl_noTargets {n : Nat} {g : Gate} (sv : QState n)
    (hname : pyUpper g.gate ∈ (["CNOT", "SWAP", "CCNOT"] : List String))
    (htg : g.targets = []) :
    applyGate n sv g = Except.error (SimError.missingTarget (pyUpper g.gate)) := by
  unfold applyGate
  dsimp only
  rw [if_neg (notFixed_of_ctrlName hname), if_neg (notRot_of_ctrlName hname),
    if_neg (notMeasure_of_ctrlName hname), if_pos hname, if_pos htg]

theorem applyGate_cnot {n : Nat} {g : Gate} (sv : QState n)
    (hname : pyUpper g.gate = "CNOT") (htg : g.targets ≠ []) :
    applyGate n sv g = (do
      let c0 ← listGetI g.controls 0
      let t0 ← listGetI g.targets 0
      let M ← create_cnot_matrix c0 t0 n
      Except.ok (M.mulVec sv)) := by
  unfold applyGate
  dsimp only
  rw [hname]
  rw [if_neg (by decide), if_neg (by decide), if_neg (by decide), if_pos (by decide),
    if_neg htg, if_pos rfl]

theorem applyGate_swap {n : Nat} {g : Gate} (sv : QState n)
    (hname : pyUpper g.gate = "SWAP") (htg : g.targets ≠ []) :
    applyGate n sv g = (do
      let t0 ← listGetI g.targets 0
      let t1 ← listGetI g.targets 1
      let M ← create_swap_matrix t0 t1 n
      Except.ok (M.mulVec sv)) := by
  unfold applyGate
  dsimp only
  rw [hname]
  rw [if_neg (by decide), if_neg (by decide), if_neg (by decide), if_pos (by decide),
    if_neg htg, if_neg (by decide), if_pos rfl]

theorem applyGate_ccnot {n : Nat} {g : Gate} (sv : QState n)
    (hname : pyUpper g.gate = "CCNOT") (htg : g.targets ≠ []) :
    applyGate n sv g = (do
      let t0 ← listGetI g.targets 0
      let M ← create_ccnot_matrix g.controls t0 n
      Except.ok (M.mulVec sv)) := by
  unfold applyGate
  dsimp only
  rw [hname]
  rw [if_neg (by decide), if_neg (by decide), if_neg (by decide), if_pos (by decide),
    if_neg htg, if_neg (by decide), if_neg (by decide)]

/-! ### Norm preservation of a single gate application -/

theorem listGetI_mem {l : List Int} {k : Nat} {x : Int} (h : listGetI l k = Except.ok x) :
    x ∈ l := by
  unfold listGetI at h
  split at h
  · injection h with h
    subst h
    exact List.get_mem _ _ _
  · simp at h

theorem applyGate_norm {n : Nat} {g : Gate} {sv sv2 : QState n}
    (hOK : GateOK n g) (h : applyGate n sv g = Except.ok sv2) :
    norm2 sv2 = norm2 sv := by
  obtain ⟨hT, hC, hD⟩ := hOK
  by_cases h1 : pyUpper g.gate ∈ (["H", "X", "Y", "Z", "S", "T"] : List String)
  · cases htg : g.targets with
    | nil =>
        rw [applyGate_fixed_noTargets sv h1 htg] at h
        simp at h
    | cons t ts =>
        obtain ⟨op, hop, heq⟩ := applyGate_fixed sv h1 htg
        rw [heq] at h
        injection h with h
        rw [← h]
        exact norm2_mulVec_unitary (create_full_gate_matrix_unitary op t n hop) sv
  · by_cases h2 : pyUpper g.gate ∈ (["RX", "RY", "RZ"] : List String)
    · rw [applyGate_rot sv h2] at h
      cases hθ : getTheta g.parameters with
      | error e => rw [hθ, exBind_error] at h; simp at h
      | ok θ =>
          rw [hθ, exBind_ok] at h
          cases hrot : create_rotation_matrix
              (String.mk [((pyUpper g.gate).data.getLast?).getD ' ']) θ with
          | error e => rw [hrot, exBind_error] at h; simp at h
          | ok M =>
              rw [hrot, exBind_ok] at h
              cases ht0 : listGetI g.targets 0 with
              | error e => rw [ht0, exBind_error] at h; simp at h
              | ok t =>
                  rw [ht0, exBind_ok] at h
                  injection h with h
                  rw [← h]
                  exact norm2_mulVec_unitary
                    (create_full_gate_matrix_unitary M t n (rotation_unitary hrot)) sv
    · by_cases h3 : pyUpper g.gate = "MEASURE"
      · rw [applyGate_measure sv h3] at h
        injection h with h
        rw [← h]
      · by_cases h4 : pyUpper g.gate ∈ (["CNOT", "SWAP", "CCNOT"] : List String)
        · by_cases htg : g.targets = []
          · rw [applyGate_ctrl_noTargets sv h4 htg] at h
            simp at h
          · have h4names : pyUpper g.gate = "CNOT" ∨ pyUpper g.gate = "SWAP" ∨
                pyUpper g.gate = "CCNOT" := by
              simpa using h4
            rcases h4names with hn | hn | hn
            · rw [applyGate_cnot sv hn htg] at h
              cases hc0 : listGetI g.controls 0 with
              | error e => rw [hc0, exBind_error] at h; simp at h
              | ok c0 =>
                  rw [hc0, exBind_ok] at h
                  cases ht0 : listGetI g.targets 0 with
                  | error e => rw [ht0, exBind_error] at h; simp at h
                  | ok t0 =>
                      rw [ht0, exBind_ok] at h
                      have hc0r := hC c0 (listGetI_mem hc0)
                      have ht0r := hT t0 (listGetI_mem ht0)
                      have hc' : ∀ q ∈ ([c0] : List Int), 0 ≤ q ∧ q < (n : Int) := by
                        intro q hq
                        rw [List.mem_singleton] at hq
                        subst hq
                        exact hc0r
                      have hdis : ∀ q ∈ ([c0] : List Int), q ≠ t0 := by
                        intro q hq
                        rw [List.mem_singleton] at hq
                        subst hq
                        intro hEq
                        exact hD q (listGetI_mem hc0) (hEq ▸ listGetI_mem ht0)
                      unfold create_cnot_matrix at h
                      rw [create_controlled_eq hc' ht0r.1 ht0r.2, exBind_ok] at h
                      injection h with h
                      rw [← h]
                      exact norm2_mulVec_perm
                        (fun i hi => ctrlPermFn_lt _ _ hi)
                        (fun i hi => ctrlPermFn_invol hc' ht0r.1 ht0r.2 hdis hi) sv
            · rw [applyGate_swap sv hn htg] at h
              cases ht0 : listGetI g.targets 0 with
              | error e => rw [ht0, exBind_error] at h; simp at h
              | ok t0 =>
                  rw [ht0, exBind_ok] at h
                  cases ht1 : listGetI g.targets 1 with
                  | error e => rw [ht1, exBind_error] at h; simp at h
                  | ok t1 =>
                      rw [ht1, exBind_ok] at h
                      have ht0r := hT t0 (listGetI_mem ht0)
                      have ht1r := hT t1 (listGetI_mem ht1)
                      rw [create_swap_eq ht0r.1 ht0r.2 ht1r.1 ht1r.2, exBind_ok] at h
                      injection h with h
                      rw [← h]
                      exact norm2_mulVec_perm
                        (fun i hi => swapPermFn_lt _ _ hi)
                        (fun i hi => swapPermFn_invol ht0r.1 ht0r.2 ht1r.1 ht1r.2 hi) sv
            · rw [applyGate_ccnot sv hn htg] at h
              cases ht0 : listGetI g.targets 0 with
              | error e => rw [ht0, exBind_error] at h; simp at h
              | ok t0 =>
                  rw [ht0, exBind_ok] at h
                  have ht0r := hT t0 (listGetI_mem ht0)
                  have hdis : ∀ q ∈ g.controls, q ≠ t0 := by
                    intro q hq hEq
                    exact hD q hq (hEq ▸ listGetI_mem ht0)
                  unfold create_ccnot_matrix at h
                  rw [create_controlled_eq hC ht0r.1 ht0r.2, exBind_ok] at h
                  injection h with h
                  rw [← h]
                  exact norm2_mulVec_perm
                    (fun i hi => ctrlPermFn_lt _ _ hi)
                    (fun i hi => ctrlPermFn_invol hC ht0r.1 ht0r.2 hdis hi) sv
        · have hrec : pyUpper g.gate ∉ recognizedGateNames := by
            unfold recognizedGateNames
            simp only [List.mem_cons, List.not_mem_nil, or_false] at h1 h2 h4 ⊢
            tauto
          rw [applyGate_unknown sv hrec] at h
          injection h with h
          rw [← h]

theorem fold_norm {n : Nat} (gs : List Gate) (hgs : ∀ g ∈ gs, GateOK n g) :
    ∀ (init sv : QState n), norm2 init = 1 →
      gs.foldlM (applyGate n) init = Except.ok sv → norm2 sv = 1 := by
  induction gs with
  | nil =>
      intro init sv hinit hfold
      rw [List.foldlM_nil] at hfold
      injection hfold with hfold
      rw [← hfold]
      exact hinit
  | cons g gs ih =>
      intro init sv hinit hfold
      rw [List.foldlM_cons] at hfold
      cases happ : applyGate n init g with
      | error e => rw [happ, exBind_error] at hfold; simp at hfold
      | ok s1 =>
          rw [happ, exBind_ok] at hfold
          have hs1 : norm2 s1 = 1 := by
            rw [applyGate_norm (hgs g (by simp)) happ]
            exact hinit
          exact ih (fun g2 hg2 => hgs g2 (by simp [hg2])) s1 sv hs1 hfold

/-! ### Helpers for evaluating whole runs on small circuits -/

theorem listGetI_cons_zero (t : Int) (ts : List Int) : listGetI (t :: ts) 0 = Except.ok t := by
  unfold listGetI
  rw [dif_pos (by simp)]
  rfl

theorem extract_init1 :
    ((List.finRange (2 ^ 1)).filterMap (fun i : Fin (2 ^ 1) =>
      if Complex.normSq (initState 1 i) > 1e-9 then
        some (String.mk (binStr 1 (i : Nat)), Complex.normSq (initState 1 i))
      else none)) = [("0", 1)] := by
  rw [show (List.finRange (2 ^ 1) : List (Fin (2 ^ 1))) = [0, 1] from rfl]
  rw [List.filterMap_cons, List.filterMap_cons, List.filterMap_nil]
  have h0 : Complex.normSq (initState 1 (0 : Fin (2 ^ 1))) = 1 := by
    simp [initState]
  have h1v : Complex.normSq (initState 1 (1 : Fin (2 ^ 1))) = 0 := by
    simp [initState]
  rw [h0, h1v, if_pos (by norm_num), if_neg (by norm_num)]
  have hkey : String.mk (binStr 1 ((0 : Fin (2 ^ 1)) : Nat)) = "0" := by decide
  rw [hkey]

theorem run_single_skipped (c : CircuitCreate) (g : Gate) (hq : c.qubits = 1)
    (hg : c.gates = [g]) (hskip : pyUpper g.gate ∉ recognizedGateNames) :
    run_simulation c = Except.ok [("0", 1)] := by
  unfold run_simulation
  dsimp only
  rw [hg, hq, List.foldlM_cons, applyGate_unknown _ hskip, exBind_ok, List.foldlM_nil]
  rw [show (pure (initState 1) : Except SimError (QState 1)) = Except.ok (initState 1) from rfl,
    exBind_ok]
  rw [extract_init1]

/-! ### Claim C2: unrecognized gate names -/

/-- Claim C2, counterexample: the one-gate circuit whose gate is named `FOO`
(a name outside the recognized set) does not raise any error — `run_simulation`
completes and returns the unchanged `|0⟩` distribution, refuting the claim
that an `UnknownGate` error is raised. -/
theorem C2_counterexample :
    pyUpper fooGate.gate ∉ recognizedGateNames ∧
    run_simulation fooCircuit = Except.ok [("0", 1)] :=
  ⟨by decide, run_single_skipped fooCircuit fooGate rfl rfl (by decide)⟩

/-- Claim C2 (amended): a gate whose upper-cased name lies outside the
recognized set {H,X,Y,Z,S,T,RX,RY,RZ,MEASURE,CNOT,SWAP,CCNOT} is silently
skipped: `applyGate` leaves the state vector unchanged and raises no error
(the `gate_matrix` variable stays `None` and the multiplication is skipped). -/
theorem C2_unknown_gate_silently_skipped (n : Nat) (sv : QState n) (g : Gate)
    (h : pyUpper g.gate ∉ recognizedGateNames) :
    applyGate n sv g = Except.ok sv :=
  applyGate_unknown sv h

/-- Witness for C2 at a concrete input. -/
theorem C2_witness :
    pyUpper fooGate.gate ∉ recognizedGateNames ∧
    applyGate 1 (initState 1) fooGate = Except.ok (initState 1) :=
  ⟨by decide, C2_unknown_gate_silently_skipped 1 (initState 1) fooGate (by decide)⟩

/-! ### Claim C3: invalid rotation axes -/

/-- Claim C3, counterexample: the circuit containing the gate named `RW` does
not fail with `InvalidAxis` — the name `RW` is not in the rotation dispatch
list `["RX", "RY", "RZ"]`, so the gate is silently skipped and the simulation
succeeds, refuting the claim. -/
theorem C3_counterexample :
    run_simulation rwCircuit = Except.ok [("0", 1)] :=
  run_single_skipped rwCircuit rwGate rfl rfl (by decide)

/-- Claim C3 (amended): a gate named `RW` never reaches the rotation-matrix
constructor — `applyGate` silently skips it; `create_rotation_matrix` itself
does raise `InvalidAxis` for every axis whose upper-case form is outside
{X, Y, Z}, but `run_simulation` only ever calls it with the last letter of
`RX`/`RY`/`RZ`. -/
theorem C3_rw_skipped_and_invalid_axis :
    (∀ (n : Nat) (sv : QState n), applyGate n sv rwGate = Except.ok sv) ∧
    (∀ (axis : String) (theta : ℝ),
      pyUpper axis ≠ "X" → pyUpper axis ≠ "Y" → pyUpper axis ≠ "Z" →
      create_rotation_matrix axis theta = Except.error SimError.invalidAxis) := by
  constructor
  · intro n sv
    exact applyGate_unknown sv (by decide)
  · intro axis theta h1 h2 h3
    unfold create_rotation_matrix
    dsimp only
    rw [if_neg h1, if_neg h2, if_neg h3]

/-- Witness for C3 at concrete inputs. -/
theorem C3_witness :
    applyGate 1 (initState 1) rwGate = Except.ok (initState 1) ∧
    create_rotation_matrix "W" 0 = Except.error SimError.invalidAxis :=
  ⟨C3_rw_skipped_and_invalid_axis.1 1 (initState 1),
   C3_rw_skipped_and_invalid_axis.2 "W" 0 (by decide) (by decide) (by decide)⟩

/-! ### Claim C5: controlled/swap gates with no targets -/

/-- Claim C5 (confirmed): when a CNOT, SWAP or CCNOT gate with an empty
`targets` list is reached (all earlier gates applied successfully), the
simulation fails with the `MissingTarget` error; the check sits before any
index access or operator construction for that gate, so the error is raised
regardless of the gate's `controls` content. -/
theorem C5_missing_target (c : CircuitCreate) (pre post : List Gate) (g : Gate)
    (hsplit : c.gates = pre ++ g :: post)
    (hname : pyUpper g.gate ∈ (["CNOT", "SWAP", "CCNOT"] : List String))
    (htg : g.targets = [])
    (sv : QState c.qubits)
    (hpre : pre.foldlM (applyGate c.qubits) (initState c.qubits) = Except.ok sv) :
    run_simulation c = Except.error (SimError.missingTarget (pyUpper g.gate)) := by
  unfold run_simulation
  dsimp only
  rw [hsplit, List.foldlM_append, hpre, exBind_ok, List.foldlM_cons,
    applyGate_ctrl_noTargets sv hname htg, exBind_error, exBind_error]

/-- Witness for C5 at a concrete input. -/
theorem C5_witness :
    run_simulation cnotNoTargetCircuit =
      Except.error (SimError.missingTarget (pyUpper cnotNoTargetGate.gate)) :=
  C5_missing_target cnotNoTargetCircuit [] [] cnotNoTargetGate rfl (by decide) rfl
    (initState 1) rfl

/-! ### Claim C8: trailing MEASURE is a no-op -/

/-- Claim C8 (confirmed): appending a MEASURE gate to any circuit leaves the
result of `run_simulation` unchanged, error or not — the MEASURE branch is a
`continue` that never touches the state vector. -/
theorem C8_trailing_measure_noop (c : CircuitCreate) (g : Gate)
    (hname : pyUpper g.gate = "MEASURE") :
    run_simulation { c with gates := c.gates ++ [g] } = run_simulation c := by
  unfold run_simulation
  dsimp only
  rw [List.foldlM_append]
  cases hfold : c.gates.foldlM (applyGate c.qubits) (initState c.qubits) with
  | error e => rw [exBind_error, exBind_error]
  | ok sv =>
      rw [exBind_ok, List.foldlM_cons, applyGate_measure sv hname, exBind_ok,
        List.foldlM_nil]
      rfl

/-- Witness for C8 at a concrete input. -/
theorem C8_witness :
    run_simulation { xCircuit with gates := xCircuit.gates ++ [measureGate] } =
      run_simulation xCircuit :=
  C8_trailing_measure_noop xCircuit measureGate (by decide)

/-! ### Claim C9: the theta parameter -/

theorem rotAxis_ok {s : String} (h : s ∈ (["RX", "RY", "RZ"] : List String)) (θ : ℝ) :
    ∃ op, create_rotation_matrix (String.mk [(s.data.getLast?).getD ' ']) θ =
      Except.ok op := by
  simp only [List.mem_cons, List.not_mem_nil, or_false] at h
  rcases h with rfl | rfl | rfl
  · unfold create_rotation_matrix
    dsimp only
    rw [if_pos (by decide)]
    exact ⟨_, rfl⟩
  · unfold create_rotation_matrix
    dsimp only
    rw [if_neg (by decide), if_pos (by decide)]
    exact ⟨_, rfl⟩
  · unfold create_rotation_matrix
    dsimp only
    rw [if_neg (by decide), if_neg (by decide), if_pos (by decide)]
    exact ⟨_, rfl⟩

/-- Claim C9, counterexample: an RX gate whose `parameters` mapping is absent
(`None`) makes the simulation fail with an `AttributeError` (`.get` on
`None`), instead of defaulting the angle to 0.0 and succeeding as the claim
states. -/
theorem C9_counterexample :
    run_simulation rxNoParamsCircuit = Except.error SimError.attributeError := by
  unfold run_simulation
  dsimp only
  rw [show rxNoParamsCircuit.gates = [rxNoParamsGate] from rfl, List.foldlM_cons,
    applyGate_rot _ (by decide),
    show getTheta rxNoParamsGate.parameters = Except.error SimError.attributeError from rfl,
    exBind_error, exBind_error, exBind_error]

/-- Claim C9 (amended): for RX/RY/RZ gates the angle is read from
`parameters["theta"]`.  When the key is missing from a *present* mapping the
angle defaults to 0.0 and the gate still succeeds; but when the `parameters`
mapping itself is absent (`None`), the simulation fails with `AttributeError`
instead of defaulting. -/
theorem C9_theta_default (n : Nat) (sv : QState n) (g : Gate)
    (hname : pyUpper g.gate ∈ (["RX", "RY", "RZ"] : List String)) :
    (g.parameters = none → applyGate n sv g = Except.error SimError.attributeError) ∧
    (∀ d t ts, g.parameters = some d →
      d.find? (fun p => p.1 == "theta") = none →
      g.targets = t :: ts →
      ∃ op, create_rotation_matrix
          (String.mk [((pyUpper g.gate).data.getLast?).getD ' ']) 0.0 = Except.ok op ∧
        applyGate n sv g = Except.ok ((create_full_gate_matrix op t n).mulVec sv)) := by
  constructor
  · intro hp
    rw [applyGate_rot sv hname,
      show getTheta g.parameters = Except.error SimError.attributeError from by rw [hp]; rfl,
      exBind_error]
  · intro d t ts hp hfind htg
    have hθ : getTheta g.parameters = Except.ok 0.0 := by
      rw [hp]
      show Except.ok (dictGet d "theta" 0.0) = Except.ok 0.0
      unfold dictGet
      rw [hfind]
      rfl
    obtain ⟨op, hop⟩ := rotAxis_ok hname 0.0
    refine ⟨op, hop, ?_⟩
    rw [applyGate_rot sv hname, hθ, exBind_ok, hop, exBind_ok, htg, listGetI_cons_zero,
      exBind_ok]

/-- Witness for C9 at concrete inputs. -/
theorem C9_witness :
    applyGate 1 (initState 1) rxNoParamsGate = Except.error SimError.attributeError ∧
    (∃ op, create_rotation_matrix
        (String.mk [((pyUpper rxEmptyParamsGate.gate).data.getLast?).getD ' ']) 0.0 =
          Except.ok op ∧
      applyGate 1 (initState 1) rxEmptyParamsGate =
        Except.ok ((create_full_gate_matrix op 0 1).mulVec (initState 1))) :=
  ⟨(C9_theta_default 1 (initState 1) rxNoParamsGate (by decide)).1 rfl,
   (C9_theta_default 1 (initState 1) rxEmptyParamsGate (by decide)).2 [] 0 [] rfl rfl rfl⟩

/-! ### Claim C10: out-of-range targets of single-qubit gates act as identity -/

theorem buildFull_id (op : CMatrix 2) (target : Int) (m : Nat)
    (h : target < 0 ∨ ((m : Int) + 1) ≤ target) :
    buildFull op target m = 1 := by
  induction m with
  | zero =>
      unfold buildFull
      rw [if_neg (by omega), Matrix.reindex_apply, Matrix.submatrix_one_equiv]
  | succ m ih =>
      unfold buildFull
      rw [ih (by push_cast at h ⊢; omega), if_neg (by push_cast at h; omega), npKron_one,
        Matrix.reindex_apply, Matrix.submatrix_one_equiv]

theorem create_full_id (op : CMatrix 2) (t : Int) (n : Nat)
    (h : t < 0 ∨ (n : Int) ≤ t) :
    create_full_gate_matrix op t n = 1 := by
  match n with
  | 0 => rfl
  | Nat.succ m =>
      exact buildFull_id op t m (by push_cast at h ⊢; omega)

/-- Claim C10, counterexample: a rotation gate with a target index outside
`[0, num_qubits)` (RX aimed at qubit 7 of a 1-qubit register) whose
`parameters` mapping is absent (`None`, the schema default) does not act as a
no-op: the simulation fails with `AttributeError` at
`gate_info.parameters.get("theta", 0.0)`, before the target is even read —
refuting the claim's "no error is raised". -/
theorem C10_counterexample :
    run_simulation rxOOBNoParamsCircuit = Except.error SimError.attributeError := by
  unfold run_simulation
  dsimp only
  rw [show rxOOBNoParamsCircuit.gates = [rxOOBNoParamsGate] from rfl, List.foldlM_cons,
    applyGate_rot _ (by decide),
    show getTheta rxOOBNoParamsGate.parameters = Except.error SimError.attributeError from rfl,
    exBind_error, exBind_error, exBind_error]

/-- Claim C10 (amended): a target index outside `[0, num_qubits)` makes
`create_full_gate_matrix` return the identity matrix (only identity factors
are Kronecker-multiplied), so a fixed single-qubit gate — or a rotation gate
whose `parameters` mapping is present — is applied as a no-op: the state
vector is unchanged by that step and no error is raised.  A rotation gate
whose `parameters` mapping is absent instead fails with `AttributeError`
before its target is read, whether or not the target is in range. -/
theorem C10_oob_target_identity :
    (∀ (op : CMatrix 2) (t : Int) (n : Nat), (t < 0 ∨ (n : Int) ≤ t) →
      create_full_gate_matrix op t n = 1) ∧
    (∀ (n : Nat) (sv : QState n) (g : Gate) (t : Int) (ts : List Int),
      g.targets = t :: ts → (t < 0 ∨ (n : Int) ≤ t) →
      (pyUpper g.gate ∈ (["H", "X", "Y", "Z", "S", "T"] : List String) ∨
        (pyUpper g.gate ∈ (["RX", "RY", "RZ"] : List String) ∧ ∃ d, g.parameters = some d)) →
      applyGate n sv g = Except.ok sv) ∧
    (∀ (n : Nat) (sv : QState n) (g : Gate),
      pyUpper g.gate ∈ (["RX", "RY", "RZ"] : List String) → g.parameters = none →
      applyGate n sv g = Except.error SimError.attributeError) := by
  refine ⟨create_full_id, ?_, ?_⟩
  · intro n sv g t ts htg hoob hdisp
    rcases hdisp with hfix | ⟨hrot, d, hd⟩
    · obtain ⟨op, hop, heq⟩ := applyGate_fixed sv hfix htg
      rw [heq, create_full_id op t n hoob, Matrix.one_mulVec]
    · obtain ⟨op, hop⟩ := rotAxis_ok hrot (dictGet d "theta" 0.0)
      rw [applyGate_rot sv hrot,
        show getTheta g.parameters = Except.ok (dictGet d "theta" 0.0) from by rw [hd]; rfl,
        exBind_ok, hop, exBind_ok, htg, listGetI_cons_zero, exBind_ok,
        create_full_id op t n hoob, Matrix.one_mulVec]
  · intro n sv g hrot hp
    rw [applyGate_rot sv hrot,
      show getTheta g.parameters = Except.error SimError.attributeError from by rw [hp]; rfl,
      exBind_error]

/-- Witness for the amended C10 at concrete inputs. -/
theorem C10_witness :
    create_full_gate_matrix H_matrix 5 1 = 1 ∧
    applyGate 1 (initState 1) hOOBGate = Except.ok (initState 1) ∧
    applyGate 1 (initState 1) rxOOBNoParamsGate = Except.error SimError.attributeError :=
  ⟨C10_oob_target_identity.1 H_matrix 5 1 (by norm_num),
   C10_oob_target_identity.2.1 1 (initState 1) hOOBGate 5 [] rfl (by norm_num)
     (Or.inl (by decide)),
   C10_oob_target_identity.2.2 1 (initState 1) rxOOBNoParamsGate (by decide) rfl⟩

/-! ### Claim C4: out-of-range indices -/

theorem create_controlled_first_oob {n : Nat} {c0 : Int} (cs : List Int) (t : Int)
    (hoob : c0 < -(n : Int) ∨ (n : Int) ≤ c0)
    (opfn : List Char → Int → Except SimError Nat) :
    create_controlled_gate_matrix (c0 :: cs) t n opfn =
      Except.error SimError.indexError := by
  unfold create_controlled_gate_matrix
  have hpow : 2 ^ n = (2 ^ n - 1) + 1 := by
    have := Nat.pos_pow_of_pos n (show 0 < 2 by norm_num)
    omega
  rw [hpow, List.range_succ_eq_map, List.foldlM_cons]
  have hget : pyStrGet (binStr n 0) c0 = Except.error SimError.indexError :=
    pyStrGet_err (by rw [binStr_length]; exact hoob)
  have hcc : checkControls (binStr n 0) (c0 :: cs) = Except.error SimError.indexError := by
    rw [checkControls, hget, exBind_error]
  dsimp only
  rw [hcc, exBind_error, exBind_error]

/-- Claim C4, counterexample: a fixed single-qubit gate (here H) whose target
index 5 lies outside `[0, 1)` does not raise `IndexOutOfRange` — the
simulation completes normally, applying the gate as the identity. -/
theorem run_single_to_init (c : CircuitCreate) (g : Gate) (hq : c.qubits = 1)
    (hg : c.gates = [g])
    (happ : applyGate 1 (initState 1) g = Except.ok (initState 1)) :
    run_simulation c = Except.ok [("0", 1)] := by
  unfold run_simulation
  dsimp only
  rw [hg, hq, List.foldlM_cons, happ, exBind_ok, List.foldlM_nil,
    show (pure (initState 1) : Except SimError (QState 1)) = Except.ok (initState 1) from rfl,
    exBind_ok, extract_init1]

theorem C4_counterexample :
    run_simulation hOOBCircuit = Except.ok [("0", 1)] := by
  apply run_single_to_init hOOBCircuit hOOBGate rfl rfl
  obtain ⟨op, hop, heq⟩ := applyGate_fixed (n := 1) (g := hOOBGate) (initState 1)
    (by decide) rfl
  rw [heq, create_full_id op 5 1 (by norm_num), Matrix.one_mulVec]

/-- Claim C4 (amended): out-of-range qubit indices are not uniformly rejected.
A fixed single-qubit gate with an out-of-range target completes without error
(see the counterexample); what does fail with IndexOutOfRange (a Python
`IndexError` from string indexing) is, e.g., a CNOT gate whose first control
index lies outside `[-qubit_count, qubit_count)` — indices in
`[-qubit_count, 0)` instead wrap around Python-style. -/
theorem C4_cnot_control_oob (n : Nat) (sv : QState n) (g : Gate) (c0 : Int)
    (cs : List Int)
    (hname : pyUpper g.gate = "CNOT") (htg : g.targets ≠ [])
    (hctl : g.controls = c0 :: cs)
    (hoob : c0 < -(n : Int) ∨ (n : Int) ≤ c0) :
    applyGate n sv g = Except.error SimError.indexError := by
  rw [applyGate_cnot sv hname htg, hctl, listGetI_cons_zero, exBind_ok]
  cases hts : g.targets with
  | nil => exact absurd hts htg
  | cons t ts =>
      rw [listGetI_cons_zero, exBind_ok]
      unfold create_cnot_matrix
      rw [create_controlled_first_oob [] t hoob flip_target, exBind_error]

/-- Witness for the amended C4 at a concrete input. -/
theorem C4_witness :
    applyGate 1 (initState 1) cnotOOBGate = Except.error SimError.indexError :=
  C4_cnot_control_oob 1 (initState 1) cnotOOBGate 5 [] (by decide) (by decide) rfl
    (by norm_num)

/-! ### Claim C6: unit norm is preserved -/

/-- Claim C6 (confirmed): for a circuit whose gates satisfy the data-model
preconditions (all indices in range, controls disjoint from targets), the sum
of squared magnitudes of the state vector is 1 at initialization and after
every prefix of gate applications that `run_simulation` performs
successfully. -/
theorem C6_norm_invariant (c : CircuitCreate)
    (hOK : ∀ g ∈ c.gates, GateOK c.qubits g) :
    norm2 (initState c.qubits) = 1 ∧
    (∀ gs rest sv, c.gates = gs ++ rest →
      gs.foldlM (applyGate c.qubits) (initState c.qubits) = Except.ok sv →
      norm2 sv = 1) := by
  refine ⟨norm2_initState _, ?_⟩
  intro gs rest sv hsplit hfold
  refine fold_norm gs ?_ _ _ (norm2_initState _) hfold
  intro g hg
  exact hOK g (by rw [hsplit]; exact List.mem_append_left _ hg)

/-- Witness for C6 at a concrete input. -/
theorem C6_witness :
    norm2 (initState xCircuit.qubits) = 1 ∧
    (∀ gs rest sv, xCircuit.gates = gs ++ rest →
      gs.foldlM (applyGate xCircuit.qubits) (initState xCircuit.qubits) = Except.ok sv →
      norm2 sv = 1) :=
  C6_norm_invariant xCircuit (by
    intro g hg
    rw [show xCircuit.gates = [xGate] from rfl, List.mem_singleton] at hg
    subst hg
    exact ⟨by decide, by decide, by decide⟩)

/-! ### Claim C7: the multi-qubit gate builders yield permutation matrices -/

/-- Claim C7 (confirmed): with all indices in `[0, n)`, controls pairwise
distinct and distinct from the target (respectively the two swap qubits
distinct), the matrices built by `create_controlled_gate_matrix` with
`flip_target` (hence `create_cnot_matrix` and `create_ccnot_matrix`) and by
`create_swap_matrix` are permutation matrices: every entry is 0 or 1 and every
row and every column carries exactly one 1. -/
theorem C7_permutation_matrices (n : Nat) (controls : List Int)
    (target c0 q1 q2 : Int)
    (hn : 1 ≤ n)
    (hc : ∀ q ∈ controls, 0 ≤ q ∧ q < (n : Int))
    (hcd : controls.Pairwise (fun a b => a ≠ b))
    (ht : 0 ≤ target ∧ target < (n : Int))
    (hdis : ∀ q ∈ controls, q ≠ target)
    (hc0 : 0 ≤ c0 ∧ c0 < (n : Int)) (hc0t : c0 ≠ target)
    (hq1 : 0 ≤ q1 ∧ q1 < (n : Int)) (hq2 : 0 ≤ q2 ∧ q2 < (n : Int)) (hqq : q1 ≠ q2) :
    (∃ M, create_controlled_gate_matrix controls target n flip_target = Except.ok M ∧
      IsPermMatrix M) ∧
    (∃ M, create_cnot_matrix c0 target n = Except.ok M ∧ IsPermMatrix M) ∧
    (∃ M, create_ccnot_matrix controls target n = Except.ok M ∧ IsPermMatrix M) ∧
    (∃ M, create_swap_matrix q1 q2 n = Except.ok M ∧ IsPermMatrix M) := by
  have hgen : ∀ ctrls : List Int, (∀ q ∈ ctrls, 0 ≤ q ∧ q < (n : Int)) →
      (∀ q ∈ ctrls, q ≠ target) →
      ∃ M, create_controlled_gate_matrix ctrls target n flip_target = Except.ok M ∧
        IsPermMatrix M := by
    intro ctrls h1 h2
    refine ⟨_, create_controlled_eq h1 ht.1 ht.2, ?_⟩
    exact isPermMatrix_permMatrixOf (fun i hi => ctrlPermFn_lt _ _ hi)
      (fun i hi => ctrlPermFn_invol h1 ht.1 ht.2 h2 hi)
  refine ⟨hgen controls hc hdis, ?_, ?_, ?_⟩
  · show ∃ M, create_controlled_gate_matrix [c0] target n flip_target = Except.ok M ∧
      IsPermMatrix M
    refine hgen [c0] ?_ ?_
    · intro q hq
      rw [List.mem_singleton] at hq
      subst hq
      exact hc0
    · intro q hq
      rw [List.mem_singleton] at hq
      subst hq
      exact hc0t
  · show ∃ M, create_controlled_gate_matrix controls target n flip_target = Except.ok M ∧
      IsPermMatrix M
    exact hgen controls hc hdis
  · refine ⟨_, create_swap_eq hq1.1 hq1.2 hq2.1 hq2.2, ?_⟩
    exact isPermMatrix_permMatrixOf (fun i hi => swapPermFn_lt _ _ hi)
      (fun i hi => swapPermFn_invol hq1.1 hq1.2 hq2.1 hq2.2 hi)

/-- Witness for C7 at concrete inputs. -/
theorem C7_witness :
    (∃ M, create_controlled_gate_matrix [0] 1 2 flip_target = Except.ok M ∧
      IsPermMatrix M) ∧
    (∃ M, create_cnot_matrix 0 1 2 = Except.ok M ∧ IsPermMatrix M) ∧
    (∃ M, create_ccnot_matrix [0] 1 2 = Except.ok M ∧ IsPermMatrix M) ∧
    (∃ M, create_swap_matrix 0 1 2 = Except.ok M ∧ IsPermMatrix M) :=
  C7_permutation_matrices 2 [0] 1 0 0 1 (by norm_num) (by decide) (by decide)
    (by decide) (by decide) (by decide) (by decide) (by decide) (by decide) (by decide)

/-! ### Claim C1: the Bell-state circuit -/

theorem exBind_pure {ε α β : Type} (x : α) (f : α → Except ε β) :
    ((pure x : Except ε α) >>= f) = f x := rfl

theorem applyGate_H {n : Nat} {g : Gate} (sv : QState n) (hname : pyUpper g.gate = "H")
    {t : Int} {ts : List Int} (htg : g.targets = t :: ts) :
    applyGate n sv g = Except.ok ((create_full_gate_matrix H_matrix t n).mulVec sv) := by
  unfold applyGate
  dsimp only
  rw [hname, if_pos (by decide), if_pos rfl, htg]

theorem bell_state1 :
    (create_full_gate_matrix H_matrix 0 2).mulVec (initState 2) =
      (fun j : Fin (2 ^ 2) =>
        if (j : Nat) = 0 ∨ (j : Nat) = 2 then ((Real.sqrt 2 : ℂ))⁻¹ else 0) := by
  funext j
  show (∑ i : Fin 4, create_full_gate_matrix H_matrix 0 2 j i * initState 2 i) = _
  fin_cases j <;>
    simp only [create_full_gate_matrix, buildFull, npKron, Matrix.reindex_apply,
      Matrix.submatrix_apply, Matrix.kroneckerMap_apply, finProdFinEquiv_symm_apply,
      Fin.sum_univ_four, initState] <;>
    norm_num [Fin.divNat, Fin.modNat, finCongr, Fin.cast, H_matrix, Matrix.smul_apply,
      smul_eq_mul, Matrix.one_apply] <;>
    exact fun h3 => absurd h3 (by decide)

theorem bell_final :
    (permMatrixOf (ctrlPermFn [0] 1 2)).mulVec
        ((create_full_gate_matrix H_matrix 0 2).mulVec (initState 2)) =
      (fun j : Fin (2 ^ 2) =>
        if (j : Nat) = 0 ∨ (j : Nat) = 3 then ((Real.sqrt 2 : ℂ))⁻¹ else 0) := by
  have hlt : ∀ i, i < 2 ^ 2 → ctrlPermFn [0] 1 2 i < 2 ^ 2 :=
    fun i hi => ctrlPermFn_lt _ _ hi
  have hinv : ∀ i, i < 2 ^ 2 → ctrlPermFn [0] 1 2 (ctrlPermFn [0] 1 2 i) = i :=
    fun i hi => ctrlPermFn_invol (by decide) (by decide) (by decide) (by decide) hi
  funext j
  rw [permMatrixOf_mulVec hlt hinv, bell_state1]
  fin_cases j <;>
    norm_num [show ctrlPermFn [0] 1 2 0 = 0 from by decide,
      show ctrlPermFn [0] 1 2 1 = 1 from by decide,
      show ctrlPermFn [0] 1 2 2 = 3 from by decide,
      show ctrlPermFn [0] 1 2 3 = 2 from by decide]

theorem bell_extract :
    ((List.finRange (2 ^ 2)).filterMap (fun i : Fin (2 ^ 2) =>
      if Complex.normSq ((fun j : Fin (2 ^ 2) =>
          if (j : Nat) = 0 ∨ (j : Nat) = 3 then ((Real.sqrt 2 : ℂ))⁻¹ else 0) i) > 1e-9 then
        some (String.mk (binStr 2 (i : Nat)),
          Complex.normSq ((fun j : Fin (2 ^ 2) =>
            if (j : Nat) = 0 ∨ (j : Nat) = 3 then ((Real.sqrt 2 : ℂ))⁻¹ else 0) i))
      else none)) = [("00", 0.5), ("11", 0.5)] := by
  have hns : Complex.normSq (((Real.sqrt 2 : ℝ) : ℂ))⁻¹ = 1 / 2 := by
    rw [map_inv₀, Complex.normSq_ofReal, Real.mul_self_sqrt (by norm_num : (0 : ℝ) ≤ 2)]
    norm_num
  rw [show (List.finRange (2 ^ 2) : List (Fin (2 ^ 2))) = [0, 1, 2, 3] from rfl]
  simp only [List.filterMap_cons, List.filterMap_nil]
  rw [show ((0 : Fin (2 ^ 2)) : Nat) = 0 from rfl, show ((1 : Fin (2 ^ 2)) : Nat) = 1 from rfl,
    show ((2 : Fin (2 ^ 2)) : Nat) = 2 from rfl, show ((3 : Fin (2 ^ 2)) : Nat) = 3 from rfl]
  norm_num [hns]
  exact ⟨by decide, by decide⟩

/-- Claim C1 (confirmed): the Bell-state circuit — H on qubit 0 then CNOT with
control 0 and target 1 on 2 qubits — yields exactly the probability map
`{"00": 0.5, "11": 0.5}` (with qubit 0 as the most significant character of
each key, and no other entries). -/
theorem C1_bell_state :
    run_simulation bellCircuit = Except.ok [("00", 0.5), ("11", 0.5)] := by
  unfold run_simulation
  dsimp only
  rw [show bellCircuit.gates = [hGate, cnotGate01] from rfl,
    show bellCircuit.qubits = 2 from rfl, List.foldlM_cons,
    applyGate_H (initState 2) (by decide) (show hGate.targets = 0 :: [] from rfl),
    exBind_ok, List.foldlM_cons,
    applyGate_cnot ((create_full_gate_matrix H_matrix 0 2).mulVec (initState 2))
      (by decide) (by decide),
    show cnotGate01.controls = [(0 : Int)] from rfl, listGetI_cons_zero, exBind_ok,
    show cnotGate01.targets = [(1 : Int)] from rfl, listGetI_cons_zero, exBind_ok]
  unfold create_cnot_matrix
  rw [create_controlled_eq (by decide) (by decide) (by decide), exBind_ok, exBind_ok,
    List.foldlM_nil, exBind_pure, bell_final]
  dsimp only
  congr 1
  exact bell_extract

end QSim
